import Mathlib

/-!
Verification development for the browser-activity forensics engine
(`scripts/browser_extractor.py`, `scripts/analyze_artifacts.py`,
`tools/firefox_forensics/advanced_recovery.py`,
`tools/firefox_forensics/firefox_forensics.py`).

The Python code is shallowly embedded: datetimes are microseconds since
1970-01-01 UTC as `Int`; byte buffers are `List Nat` (each entry < 256);
a function that can raise a Python exception returns an explicit outcome
type.  External-library behaviour (LZ4 block decompression, JSON parsing,
SQLite query results) is abstracted as oracle inputs; everything the
repository's own code does (filters, regular-expression scans, ordering,
deduplication, thresholds, arithmetic) is translated directly from the
source.
-/

/-- Outcome of a Python timestamp-conversion call: either an uncaught
exception (`raised`) or a returned value, where `none` embeds Python's
`None` and `some t` a `datetime` at `t` microseconds since 1970-01-01. -/
inductive TsResult where
  | raised : TsResult
  | val : Option Int → TsResult
deriving DecidableEq, Repr

/-- Microsecond offset of 1601-01-01 relative to 1970-01-01: the constant
`11644473600000000` from `BrowserExtractor.timestamp_base` (line 58 of
`browser_extractor.py`). -/
def chromeEpochShiftUs : Int := 11644473600000000

/-- Second offset of 2001-01-01 relative to 1970-01-01: the constant
`978307200` from `BrowserExtractor.timestamp_base` (line 60). -/
def safariEpochShiftS : Int := 978307200

/-- Python `datetime.min` (0001-01-01 00:00:00) in microseconds since
1970-01-01; a computed result below this raises `OverflowError`. -/
def minDatetimeUs : Int := -62135596800000000

/-- Python `datetime.max` (9999-12-31 23:59:59.999999) in microseconds
since 1970-01-01; a computed result above this raises `OverflowError`. -/
def maxDatetimeUs : Int := 253402300799999999

/-- The bound computed at lines 165-166 of `browser_extractor.py`:
`(datetime(2100, 1, 1) - datetime(1970, 1, 1)).total_seconds() * 1000000`. -/
def firefoxMaxTimestampUs : Int := 4102444800000000

/-- Embeds `BrowserExtractor.chrome_timestamp_to_datetime` (lines 142-148):
zero returns `None`; otherwise `datetime(1601, 1, 1) +
timedelta(microseconds=timestamp)`, which raises `OverflowError` whenever
the sum leaves the representable `datetime` range (no other bound is
applied). -/
def chrome_timestamp_to_datetime (timestamp : Int) : TsResult :=
  if timestamp = 0 then .val none
  else
    let result := timestamp - chromeEpochShiftUs
    if minDatetimeUs ≤ result ∧ result ≤ maxDatetimeUs then .val (some result)
    else .raised

/-- Embeds `BrowserExtractor.safari_timestamp_to_datetime` (lines 175-181):
zero returns `None`; otherwise `datetime(2001, 1, 1) +
timedelta(seconds=timestamp)`, raising `OverflowError` outside the
`datetime` range (no other bound is applied).  Raw Safari values are
modelled as integers of seconds. -/
def safari_timestamp_to_datetime (timestamp : Int) : TsResult :=
  if timestamp = 0 then .val none
  else
    let result := safariEpochShiftS * 1000000 + timestamp * 1000000
    if minDatetimeUs ≤ result ∧ result ≤ maxDatetimeUs then .val (some result)
    else .raised

/-- Lower bound of the platform `time_t` range (-2^63 seconds), in
microseconds: `datetime.fromtimestamp` raises `OverflowError` for seconds
values that cannot be converted to a C `time_t` at all. -/
def minTimeTUs : Int := -9223372036854775808000000

/-- Embeds `BrowserExtractor.firefox_timestamp_to_datetime` (lines 150-173):
`None` or zero return `None`; values above the year-2100 bound return
`None` (that guard filters only large positive values).  Otherwise
`datetime.fromtimestamp(timestamp / 1000000)` runs: a seconds value below
the `time_t` range raises `OverflowError`, which the
`except (ValueError, TypeError, OSError)` clause does NOT catch, so the
exception escapes; a value convertible to `time_t` but outside the
representable date range raises `OSError`/`ValueError`, which is caught
and returns `None`; every other value yields the corresponding instant.
The float division by 1000000 and the local-timezone rendering of
`fromtimestamp` do not change which branch is taken and are not modelled;
the value is kept in microseconds. -/
def firefox_timestamp_to_datetime (timestamp : Option Int) : TsResult :=
  match timestamp with
  | none => .val none
  | some t =>
    if t = 0 then .val none
    else if firefoxMaxTimestampUs < t then .val none
    else if t < minTimeTUs then .raised
    else if t < minDatetimeUs then .val none
    else .val (some t)

/-- C9: for every supported epoch encoding, normalizing a raw timestamp of
exactly zero (and Python `None` for Firefox) yields absent, never the
epoch origin date, and no exception is raised. -/
theorem c9_zero_timestamp_absent :
    chrome_timestamp_to_datetime 0 = .val none ∧
    firefox_timestamp_to_datetime (some 0) = .val none ∧
    firefox_timestamp_to_datetime none = .val none ∧
    safari_timestamp_to_datetime 0 = .val none := by
  refine ⟨?_, ?_, ?_, ?_⟩ <;> rfl

/-- C4 counterexample: the Chrome normalizer, at the raw value
20000000000000000 microseconds since 1601 (about the year 2234), returns a
date beyond the year-2100 bound instead of absent, and at the raw value
1000000000000000000 it raises an exception instead of returning absent. -/
theorem c4_counterexample :
    chrome_timestamp_to_datetime 20000000000000000 = .val (some 8355526400000000) ∧
    firefoxMaxTimestampUs < 8355526400000000 ∧
    chrome_timestamp_to_datetime 1000000000000000000 = .raised := by
  refine ⟨?_, ?_, ?_⟩ <;> decide

/-- C4 amended: the Firefox normalizer is year-2100-bounded (every value
beyond the bound yields absent) and exception-free on every value whose
seconds fit the platform `time_t` range, but it raises an uncaught
`OverflowError` for values below that range (such as -10^26
microseconds), since its `except` clause catches only
`ValueError`/`TypeError`/`OSError`.  The Chrome and Safari converters
apply no year-2100 bound — a nonzero raw value whose date fits Python's
`datetime` range is returned even far beyond 2100, and values outside
that range raise `OverflowError`. -/
theorem c4_amended_normalizer_bounds :
    (∀ t : Int, minTimeTUs ≤ t →
      ∃ o : Option Int, firefox_timestamp_to_datetime (some t) = .val o) ∧
    (∀ t : Int, firefoxMaxTimestampUs < t →
      firefox_timestamp_to_datetime (some t) = .val none) ∧
    firefox_timestamp_to_datetime (some (-100000000000000000000000000)) = .raised ∧
    chrome_timestamp_to_datetime 20000000000000000 = .val (some 8355526400000000) ∧
    firefoxMaxTimestampUs < 8355526400000000 ∧
    chrome_timestamp_to_datetime 1000000000000000000 = .raised ∧
    safari_timestamp_to_datetime 100000000000 = .val (some 100978307200000000) ∧
    safari_timestamp_to_datetime 1000000000000 = .raised := by
  refine ⟨?_, ?_, by decide, by decide, by decide, by decide, by decide, by decide⟩
  · intro t ht
    unfold firefox_timestamp_to_datetime
    by_cases h0 : t = 0
    · exact ⟨none, by simp [h0]⟩
    · by_cases h1 : firefoxMaxTimestampUs < t
      · exact ⟨none, by simp [h0, h1]⟩
      · have h2 : ¬ t < minTimeTUs := by omega
        by_cases h3 : t < minDatetimeUs
        · exact ⟨none, by simp [h0, h1, h2, h3]⟩
        · exact ⟨some t, by simp [h0, h1, h2, h3]⟩
  · intro t ht
    unfold firefox_timestamp_to_datetime
    have h0 : ¬ t = 0 := by
      intro h
      rw [h] at ht
      exact absurd ht (by decide)
    simp [h0, ht]

/-- Character-prefix test modelling Python `str.startswith`: the pattern's
characters are a prefix of the string's characters. -/
def strStartsWith (s pat : String) : Bool :=
  List.isPrefixOf pat.data s.data

/-- Python `bytes.decode('utf-8', errors='ignore')` restricted to the byte
ranges the scanners below can produce (ASCII only, so the decode is the
identity on those bytes). -/
def decodeAscii (bs : List Nat) : String :=
  String.mk (bs.map Char.ofNat)

/-- A byte admitted by the character class of the URL pattern
`rb'https?://[^\s\x00-\x1F\x7F-\xFF]{3,}'` used by `recover_from_wal`,
`recover_from_journal` and `recover_from_database_free_space`: everything
except ASCII whitespace, control bytes and bytes at or above 0x7F, i.e.
exactly 0x21 through 0x7E. -/
def validUrlByte (b : Nat) : Bool :=
  33 ≤ b && b ≤ 126

/-- After the scheme part, the URL pattern requires the literal bytes
`://` followed by at least three bytes of `validUrlByte`, matched
greedily (longest run). -/
def afterScheme (l : List Nat) : Option (List Nat) :=
  match l with
  | 58 :: 47 :: 47 :: rest =>
    let run := rest.takeWhile validUrlByte
    if 3 ≤ run.length then some (58 :: 47 :: 47 :: run) else none
  | _ => none

/-- The regular-expression match attempt at one position: literal `http`,
then a greedy optional `s` (with backtracking, as `https?` behaves), then
`afterScheme`. -/
def matchAt (l : List Nat) : Option (List Nat) :=
  match l with
  | 104 :: 116 :: 116 :: 112 :: rest =>
    (match rest with
     | 115 :: rest2 =>
       match afterScheme rest2 with
       | some m => some (104 :: 116 :: 116 :: 112 :: 115 :: m)
       | none => (afterScheme rest).map (fun m => 104 :: 116 :: 116 :: 112 :: m)
     | _ => (afterScheme rest).map (fun m => 104 :: 116 :: 116 :: 112 :: m))
  | _ => none

/-- Fuelled scan implementing `re.finditer` over a byte buffer: at each
position the non-overlapping leftmost match is emitted with its start
offset, and scanning resumes after the match.  One unit of fuel is spent
per inspected position, so fuel equal to the buffer length always
suffices (every step removes at least one byte). -/
def scanUrlsPosFuel : Nat → Nat → List Nat → List (Nat × List Nat)
  | 0, _, _ => []
  | _ + 1, _, [] => []
  | fuel + 1, i, b :: rest =>
    match matchAt (b :: rest) with
    | some m => (i, m) :: scanUrlsPosFuel fuel (i + m.length) (List.drop (m.length - 1) rest)
    | none => scanUrlsPosFuel fuel (i + 1) rest

/-- All URL-pattern matches of a byte buffer, with start offsets. -/
def scanUrlsPos (data : List Nat) : List (Nat × List Nat) :=
  scanUrlsPosFuel data.length 0 data

/-- Whether some position of the buffer carries a URL-shaped substring,
i.e. a match of the scanners' URL pattern. -/
def hasUrlShape : List Nat → Bool
  | [] => false
  | b :: rest => (matchAt (b :: rest)).isSome || hasUrlShape rest

/-- A recovered candidate record of `advanced_recovery.py`: the dict
`{'url': ..., 'title': ..., 'recovery_method': ...}` every strategy
appends. -/
structure FRec where
  url : String
  title : String
  recovery_method : String
deriving DecidableEq, Repr

/-- Embeds `AdvancedFirefoxRecovery.recover_from_wal` (lines 28-55): every
URL-pattern match of the WAL bytes is decoded and kept unless empty or
starting with `about:` or `place:`. -/
def recover_from_wal (walData : List Nat) : List FRec :=
  ((scanUrlsPos walData).map (fun pm => decodeAscii pm.2)).filterMap (fun url =>
    if url ≠ "" ∧ strStartsWith url "about:" = false ∧ strStartsWith url "place:" = false then
      some ⟨url, "[Recovered from WAL]", "wal_recovery"⟩
    else none)

/-- Embeds `AdvancedFirefoxRecovery.recover_from_journal` (lines 57-84):
identical scan over the rollback-journal bytes, with its own title and
method tags. -/
def recover_from_journal (journalData : List Nat) : List FRec :=
  ((scanUrlsPos journalData).map (fun pm => decodeAscii pm.2)).filterMap (fun url =>
    if url ≠ "" ∧ strStartsWith url "about:" = false ∧ strStartsWith url "place:" = false then
      some ⟨url, "[Recovered from Journal]", "journal_recovery"⟩
    else none)

/-- One navigation entry of a decompressed session container: the
`url`/`title` fields read from each entry dict. -/
structure SessionEntry where
  url : String
  title : String
deriving DecidableEq, Repr

/-- The Mozilla LZ4 magic `b'mozLz40\0'` checked by the session-container
readers. -/
def mozLz4Magic : List Nat := [109, 111, 122, 76, 122, 52, 48, 0]

/-- One file of `sessionstore-backups` as `recover_from_session_files`
sees it: its name, its first eight bytes, and — since LZ4 block
decompression and JSON parsing are external-library calls — the decoded
windows → tabs → entries tree as an oracle, `none` when decompression or
parsing fails (which that function catches, skipping the file). -/
structure MozSessionFile where
  name : String
  header : List Nat
  windows : Option (List (List (List SessionEntry)))
deriving DecidableEq, Repr

/-- Embeds `AdvancedFirefoxRecovery.recover_from_session_files` (lines
86-132): files whose header is not the LZ4 magic contribute nothing, as
do files whose decompression or parsing fails; otherwise every entry of
every tab of every window is kept unless its URL is empty or starts with
`about:` or `place:`. -/
def recover_from_session_files (files : List MozSessionFile) : List FRec :=
  files.flatMap (fun f =>
    if f.header = mozLz4Magic then
      match f.windows with
      | some ws =>
        ws.flatMap (fun w => w.flatMap (fun tab =>
          tab.filterMap (fun entry =>
            if entry.url ≠ "" ∧ strStartsWith entry.url "about:" = false ∧
                strStartsWith entry.url "place:" = false then
              some ⟨entry.url, "[Session] " ++ entry.title, "session_" ++ f.name⟩
            else none)))
      | none => []
    else [])

/-- A byte admitted by the title pattern `rb'[A-Za-z0-9\s\-_]{3,}'` of the
free-space scanner: letters, digits, ASCII whitespace, hyphen and
underscore. -/
def titleByte (b : Nat) : Bool :=
  (65 ≤ b && b ≤ 90) || (97 ≤ b && b ≤ 122) || (48 ≤ b && b ≤ 57) ||
  b == 32 || b == 9 || b == 10 || b == 11 || b == 12 || b == 13 ||
  b == 45 || b == 95

/-- Fuelled `re.finditer` for the title pattern: the maximal runs of
`titleByte` bytes of length at least three, in order.  Fuel equal to the
buffer length always suffices. -/
def titleRunsFuel : Nat → List Nat → List (List Nat)
  | 0, _ => []
  | _ + 1, [] => []
  | fuel + 1, b :: rest =>
    if titleByte b then
      let run := (b :: rest).takeWhile titleByte
      (if 3 ≤ run.length then [run] else []) ++
        titleRunsFuel fuel ((b :: rest).dropWhile titleByte)
    else titleRunsFuel fuel rest

/-- All title-pattern matches of a byte buffer. -/
def titleRuns (data : List Nat) : List (List Nat) :=
  titleRunsFuel data.length data

/-- Python's substring test `t in l` on byte strings: `t` occurs
contiguously inside `l`. -/
def listIsInfixOf : List Nat → List Nat → Bool
  | t, [] => t.isEmpty
  | t, b :: rest => List.isPrefixOf t (b :: rest) || listIsInfixOf t rest

/-- The fold of lines 170-174 of `advanced_recovery.py`: among the title
candidates, keep the longest one that is not a substring of the URL. -/
def bestTitle (url : List Nat) : List (List Nat) → List Nat → List Nat
  | [], best => best
  | t :: ts, best =>
    if best.length < t.length ∧ listIsInfixOf t url = false then bestTitle url ts t
    else bestTitle url ts best

/-- The free-space scanning loop (lines 156-180): per URL match, skip
duplicates and internal schemes, then search the 200-byte window around
the match for the best title. -/
def freeSpaceGo (dbData : List Nat) : List (Nat × List Nat) → List String → List FRec
  | [], _ => []
  | (i, m) :: ms, seen =>
    let url := decodeAscii m
    if url ≠ "" ∧ url ∉ seen ∧ strStartsWith url "about:" = false ∧
        strStartsWith url "place:" = false then
      let s := i - 200
      let surrounding := (dbData.drop s).take (i + m.length + 200 - s)
      let title := bestTitle m (titleRuns surrounding) []
      ⟨url,
        if title ≠ [] then "[Free Space] " ++ decodeAscii title else "[Free Space]",
        "database_free_space"⟩ :: freeSpaceGo dbData ms (url :: seen)
    else freeSpaceGo dbData ms seen

/-- Embeds `AdvancedFirefoxRecovery.recover_from_database_free_space`
(lines 134-187), scanning the whole database image for URL patterns.  The
scratch-copy file handling around the scan carries no data flow and is
modelled in the file-access traces below. -/
def recover_from_database_free_space (dbData : List Nat) : List FRec :=
  freeSpaceGo dbData (scanUrlsPos dbData) []

/-- Embeds `AdvancedFirefoxRecovery.recover_from_cookies` (lines 189-221):
the distinct non-null cookie hosts are the query result (oracle input);
hosts that are empty, start with a dot, or start with `localhost` or
`127.0.0.1` are skipped, the rest become `https://` URLs. -/
def recover_from_cookies (hosts : List String) : List FRec :=
  hosts.filterMap (fun host =>
    if host ≠ "" ∧ strStartsWith host "." = false ∧
        strStartsWith host "localhost" = false ∧
        strStartsWith host "127.0.0.1" = false then
      some ⟨"https://" ++ host, "[From Cookies] " ++ host, "cookie_analysis"⟩
    else none)

/-- The concatenation order of `recover_all` (lines 223-257): WAL, then
journal, then session files, then database free space, then cookies. -/
def allCandidates (walData journalData : List Nat) (sessionFiles : List MozSessionFile)
    (dbData : List Nat) (cookieHosts : List String) : List FRec :=
  recover_from_wal walData ++ recover_from_journal journalData ++
    recover_from_session_files sessionFiles ++
    recover_from_database_free_space dbData ++ recover_from_cookies cookieHosts

/-- The duplicate-removal loop of `recover_all` (lines 259-265): keep each
record whose URL has not been seen yet, in order. -/
def dedupFirstGo : List String → List FRec → List FRec
  | _, [] => []
  | seen, r :: rs =>
    if r.url ∈ seen then dedupFirstGo seen rs
    else r :: dedupFirstGo (r.url :: seen) rs

/-- Embeds `AdvancedFirefoxRecovery.recover_all` (lines 223-269): run the
five strategies in order, concatenate, and keep the first record per
URL. -/
def recover_all (walData journalData : List Nat) (sessionFiles : List MozSessionFile)
    (dbData : List Nat) (cookieHosts : List String) : List FRec :=
  dedupFirstGo [] (allCandidates walData journalData sessionFiles dbData cookieHosts)

/-- Modelled from the spec: the confidence ranking "orphaned-row >
session-container > cookie-container (structured) > free-space/WAL/journal
pattern carving > unparsed summary stub", mapped onto the
`recovery_method` tags the strategies emit, for comparison with what
`recover_all` actually keeps. -/
def specConfidenceRank (method : String) : Nat :=
  if method = "orphaned_row" then 5
  else if strStartsWith method "session_" then 4
  else if method = "cookie_analysis" then 3
  else if method = "wal_recovery" ∨ method = "journal_recovery" ∨
      method = "database_free_space" then 2
  else 1

/-- Helper: once a URL is in the seen set, no record carrying it survives
the duplicate-removal loop. -/
theorem dedupFirstGo_filter_seen (u : String) :
    ∀ (l : List FRec) (seen : List String), u ∈ seen →
      (dedupFirstGo seen l).filter (fun r => r.url == u) = []
  | [], _, _ => rfl
  | r :: rs, seen, hu => by
    unfold dedupFirstGo
    by_cases hr : r.url ∈ seen
    · rw [if_pos hr]
      exact dedupFirstGo_filter_seen u rs seen hu
    · rw [if_neg hr]
      have hru : ¬ r.url = u := fun h => hr (h ▸ hu)
      rw [List.filter_cons_of_neg (by simpa using hru)]
      exact dedupFirstGo_filter_seen u rs (r.url :: seen) (List.mem_cons_of_mem _ hu)

/-- Helper: for a URL not yet seen, the records the loop keeps for it are
exactly the first record carrying it in the input order. -/
theorem dedupFirstGo_filter_not_seen (u : String) :
    ∀ (l : List FRec) (seen : List String), u ∉ seen →
      (dedupFirstGo seen l).filter (fun r => r.url == u) =
        ((l.filter (fun r => r.url == u)).take 1)
  | [], _, _ => rfl
  | r :: rs, seen, hu => by
    unfold dedupFirstGo
    by_cases hru : r.url = u
    · rw [if_neg (fun h => hu (hru ▸ h))]
      rw [List.filter_cons_of_pos (by simpa using hru)]
      rw [List.filter_cons_of_pos (by simpa using hru)]
      rw [dedupFirstGo_filter_seen u rs (r.url :: seen) (by simp [hru])]
      rfl
    · by_cases hr : r.url ∈ seen
      · rw [if_pos hr, List.filter_cons_of_neg (by simpa using hru)]
        exact dedupFirstGo_filter_not_seen u rs seen hu
      · rw [if_neg hr]
        rw [List.filter_cons_of_neg (by simpa using hru)]
        rw [List.filter_cons_of_neg (by simpa using hru)]
        refine dedupFirstGo_filter_not_seen u rs (r.url :: seen) ?_
        intro h
        rcases List.mem_cons.mp h with h | h
        · exact hru h.symm
        · exact hu h

/-- Helper: every record the loop keeps has a URL outside the seen set. -/
theorem mem_dedupFirstGo_url_not_seen :
    ∀ (l : List FRec) (seen : List String) (r : FRec),
      r ∈ dedupFirstGo seen l → r.url ∉ seen
  | [], _, _, h => absurd h (List.not_mem_nil _)
  | x :: rs, seen, r, h => by
    unfold dedupFirstGo at h
    by_cases hx : x.url ∈ seen
    · rw [if_pos hx] at h
      exact mem_dedupFirstGo_url_not_seen rs seen r h
    · rw [if_neg hx] at h
      rcases List.mem_cons.mp h with h | h
      · exact h ▸ hx
      · have := mem_dedupFirstGo_url_not_seen rs (x.url :: seen) r h
        exact fun hm => this (List.mem_cons_of_mem _ hm)

/-- Helper: the URLs the loop keeps are pairwise distinct. -/
theorem dedupFirstGo_pairwise_urls :
    ∀ (l : List FRec) (seen : List String),
      (dedupFirstGo seen l).Pairwise (fun a b => a.url ≠ b.url)
  | [], _ => List.Pairwise.nil
  | x :: rs, seen => by
    unfold dedupFirstGo
    by_cases hx : x.url ∈ seen
    · rw [if_pos hx]
      exact dedupFirstGo_pairwise_urls rs seen
    · rw [if_neg hx]
      refine List.pairwise_cons.mpr ⟨?_, dedupFirstGo_pairwise_urls rs (x.url :: seen)⟩
      intro b hb h
      exact mem_dedupFirstGo_url_not_seen rs (x.url :: seen) b hb (h ▸ List.mem_cons_self _ _)

/-- Helper: the loop only keeps records of its input. -/
theorem mem_dedupFirstGo :
    ∀ (l : List FRec) (seen : List String) (r : FRec),
      r ∈ dedupFirstGo seen l → r ∈ l
  | [], _, _, h => absurd h (List.not_mem_nil _)
  | x :: rs, seen, r, h => by
    unfold dedupFirstGo at h
    by_cases hx : x.url ∈ seen
    · rw [if_pos hx] at h
      exact List.mem_cons_of_mem _ (mem_dedupFirstGo rs seen r h)
    · rw [if_neg hx] at h
      rcases List.mem_cons.mp h with h | h
      · exact h ▸ List.mem_cons_self _ _
      · exact List.mem_cons_of_mem _ (mem_dedupFirstGo rs (x.url :: seen) r h)

/-- C1 amended: per distinct URL, `recover_all` keeps exactly one record —
the earliest-discovered one in the fixed strategy execution order WAL,
journal, session container, free space, cookie analysis (not the spec's
confidence ranking; no orphaned-row strategy participates). -/
theorem c1_amended_dedup_keeps_first_in_run_order (walData journalData : List Nat)
    (sessionFiles : List MozSessionFile) (dbData : List Nat)
    (cookieHosts : List String) (u : String) :
    (recover_all walData journalData sessionFiles dbData cookieHosts).filter
        (fun r => r.url == u) =
      ((allCandidates walData journalData sessionFiles dbData cookieHosts).filter
        (fun r => r.url == u)).take 1 :=
  dedupFirstGo_filter_not_seen u _ [] (List.not_mem_nil u)

/-- A WAL byte buffer holding exactly the ASCII bytes of
`https://u.ex/aaa`. -/
def walBytesExample : List Nat :=
  [104, 116, 116, 112, 115, 58, 47, 47, 117, 46, 101, 120, 47, 97, 97, 97]

/-- A well-formed session backup file whose only entry is the same URL. -/
def sessionFileExample : MozSessionFile :=
  ⟨"recovery.jsonlz4", mozLz4Magic, some [[[⟨"https://u.ex/aaa", "T"⟩]]]⟩

/-- C1 counterexample: with the same URL recovered both from the WAL and
from a session container, `recover_all` keeps the WAL record, although the
competing session-container record ranks strictly higher in the spec's
confidence ordering — so the kept record is not the highest-confidence one
of its URL group. -/
theorem c1_counterexample :
    recover_all walBytesExample [] [sessionFileExample] [] [] =
      [⟨"https://u.ex/aaa", "[Recovered from WAL]", "wal_recovery"⟩] ∧
    (⟨"https://u.ex/aaa", "[Session] T", "session_recovery.jsonlz4"⟩ : FRec) ∈
      allCandidates walBytesExample [] [sessionFileExample] [] [] ∧
    specConfidenceRank "wal_recovery" < specConfidenceRank "session_recovery.jsonlz4" := by
  refine ⟨?_, ?_, ?_⟩ <;> decide

/-- Embeds the deleted-history assembly of
`BrowserExtractor.extract_all_browsers` (lines 1246-1260): the advanced
recovery tool's records are kept only when their URL is absent from the
regular (live) history URLs and does not start with `about:`.  The entry
rebuild at lines 1251-1259 maps the three modelled fields identically. -/
def extract_all_browsers_deleted (regularUrls : List String)
    (walData journalData : List Nat) (sessionFiles : List MozSessionFile)
    (dbData : List Nat) (cookieHosts : List String) : List FRec :=
  (recover_all walData journalData sessionFiles dbData cookieHosts).filter
    (fun r => decide (r.url ∉ regularUrls ∧ strStartsWith r.url "about:" = false))

/-- C6: the aggregated deleted-history output contains at most one record
per distinct URL, and no URL of the live event set appears in it. -/
theorem c6_aggregator_dedup_and_live_exclusion (regularUrls : List String)
    (walData journalData : List Nat) (sessionFiles : List MozSessionFile)
    (dbData : List Nat) (cookieHosts : List String) :
    (extract_all_browsers_deleted regularUrls walData journalData sessionFiles
        dbData cookieHosts).Pairwise (fun a b => a.url ≠ b.url) ∧
    ∀ r ∈ extract_all_browsers_deleted regularUrls walData journalData sessionFiles
        dbData cookieHosts, r.url ∉ regularUrls := by
  constructor
  · exact List.Pairwise.filter _ (dedupFirstGo_pairwise_urls _ _)
  · intro r hr
    have h := (List.mem_filter.mp hr).2
    exact (of_decide_eq_true h).1

/-- Helper: the WAL and journal scanners only emit records whose URL
passed the non-empty / non-`about:` / non-`place:` filter. -/
theorem mem_urlFilterMap {l : List String} {ti me : String} {r : FRec}
    (hr : r ∈ l.filterMap (fun url =>
      if url ≠ "" ∧ strStartsWith url "about:" = false ∧
          strStartsWith url "place:" = false then
        some ⟨url, ti, me⟩
      else none)) :
    r.url ≠ "" ∧ strStartsWith r.url "about:" = false := by
  rcases List.mem_filterMap.mp hr with ⟨url, _, heq⟩
  by_cases h : url ≠ "" ∧ strStartsWith url "about:" = false ∧
      strStartsWith url "place:" = false
  · rw [if_pos h] at heq
    cases heq
    exact ⟨h.1, h.2.1⟩
  · rw [if_neg h] at heq
    cases heq

/-- Helper: session-container records carry filtered URLs. -/
theorem mem_recover_from_session_files_urlOk {files : List MozSessionFile} {r : FRec}
    (hr : r ∈ recover_from_session_files files) :
    r.url ≠ "" ∧ strStartsWith r.url "about:" = false := by
  rcases List.mem_flatMap.mp hr with ⟨f, _, hrf⟩
  by_cases hh : f.header = mozLz4Magic
  · rw [if_pos hh] at hrf
    cases hws : f.windows with
    | none => rw [hws] at hrf; cases hrf
    | some ws =>
      rw [hws] at hrf
      rcases List.mem_flatMap.mp hrf with ⟨w, _, hrw⟩
      rcases List.mem_flatMap.mp hrw with ⟨tab, _, hrt⟩
      rcases List.mem_filterMap.mp hrt with ⟨entry, _, heq⟩
      by_cases h : entry.url ≠ "" ∧ strStartsWith entry.url "about:" = false ∧
          strStartsWith entry.url "place:" = false
      · rw [if_pos h] at heq
        cases heq
        exact ⟨h.1, h.2.1⟩
      · rw [if_neg h] at heq
        cases heq
  · rw [if_neg hh] at hrf
    cases hrf

/-- Helper: free-space records carry filtered URLs. -/
theorem mem_freeSpaceGo_urlOk :
    ∀ (ms : List (Nat × List Nat)) (seen : List String) (dbData : List Nat) (r : FRec),
      r ∈ freeSpaceGo dbData ms seen →
      r.url ≠ "" ∧ strStartsWith r.url "about:" = false
  | [], _, _, _, h => absurd h (List.not_mem_nil _)
  | (i, m) :: ms, seen, dbData, r, h => by
    unfold freeSpaceGo at h
    by_cases hc : decodeAscii m ≠ "" ∧ decodeAscii m ∉ seen ∧
        strStartsWith (decodeAscii m) "about:" = false ∧
        strStartsWith (decodeAscii m) "place:" = false
    · rw [if_pos hc] at h
      rcases List.mem_cons.mp h with h | h
      · subst h
        exact ⟨hc.1, hc.2.2.1⟩
      · exact mem_freeSpaceGo_urlOk ms (decodeAscii m :: seen) dbData r h
    · rw [if_neg hc] at h
      exact mem_freeSpaceGo_urlOk ms seen dbData r h

/-- Helper: cookie-derived records carry an `https://` URL, hence
non-empty and not `about:`-schemed. -/
theorem mem_recover_from_cookies_urlOk {hosts : List String} {r : FRec}
    (hr : r ∈ recover_from_cookies hosts) :
    r.url ≠ "" ∧ strStartsWith r.url "about:" = false := by
  rcases List.mem_filterMap.mp hr with ⟨host, _, heq⟩
  by_cases h : host ≠ "" ∧ strStartsWith host "." = false ∧
      strStartsWith host "localhost" = false ∧
      strStartsWith host "127.0.0.1" = false
  · rw [if_pos h] at heq
    cases heq
    constructor
    · intro habs
      have h2 := congrArg String.data habs
      rw [String.data_append] at h2
      have h1 : "https://".data = 'h' :: "ttps://".data := rfl
      rw [h1, List.cons_append] at h2
      simp at h2
    · unfold strStartsWith
      rw [String.data_append]
      have h1 : "about:".data = 'a' :: "bout:".data := rfl
      have h2 : "https://".data = 'h' :: "ttps://".data := rfl
      rw [h1, h2, List.cons_append]
      simp [List.isPrefixOf]
  · rw [if_neg h] at heq
    cases heq

/-- Helper: every candidate of the five strategies has a non-empty URL not
starting with `about:`. -/
theorem mem_allCandidates_urlOk {walData journalData : List Nat}
    {sessionFiles : List MozSessionFile} {dbData : List Nat}
    {cookieHosts : List String} {r : FRec}
    (hr : r ∈ allCandidates walData journalData sessionFiles dbData cookieHosts) :
    r.url ≠ "" ∧ strStartsWith r.url "about:" = false := by
  unfold allCandidates at hr
  rcases List.mem_append.mp hr with hr | hr5
  rotate_left
  · exact mem_recover_from_cookies_urlOk hr5
  rcases List.mem_append.mp hr with hr | hr4
  rotate_left
  · exact mem_freeSpaceGo_urlOk _ _ _ _ hr4
  rcases List.mem_append.mp hr with hr | hr3
  rotate_left
  · exact mem_recover_from_session_files_urlOk hr3
  rcases List.mem_append.mp hr with hr1 | hr2
  · exact mem_urlFilterMap hr1
  · exact mem_urlFilterMap hr2

/-- One navigation entry as `extract_firefox_session_history` reads it
from a decompressed backup: `url`, `title` and the millisecond
`lastAccessed` stamp. -/
structure FFSessionEntry where
  url : String
  title : String
  lastAccessed : Int
deriving DecidableEq, Repr

/-- One file of the `sessionstore-backups` directory as read at lines
423-446 of `browser_extractor.py`: its name, its first eight bytes, and
the decoded windows → tabs → entries tree (`none` when LZ4 or JSON
parsing fails, which that function catches and skips). -/
structure FFBackupFile where
  name : String
  header : List Nat
  windows : Option (List (List (List FFSessionEntry)))
deriving DecidableEq, Repr

/-- The deleted-history record dict built at lines 466-479 of
`browser_extractor.py`, restricted to the fields with data flow (the
always-`None` forensic columns and the wall-clock `deletion_time` are
omitted). -/
structure DeletedRecord where
  browser : String
  title : String
  url : String
  visit_count : Int
  visit_time : TsResult
  recovery_status : String
deriving DecidableEq, Repr

/-- The record built for one session entry (lines 462-479): the
millisecond stamp is scaled to microseconds when truthy, then
normalized. -/
def ffSessionRecord (name : String) (en : FFSessionEntry) : DeletedRecord :=
  { browser := "Firefox"
    title := "[RECOVERED FROM SESSION] " ++ en.title
    url := en.url
    visit_count := 1
    visit_time := firefox_timestamp_to_datetime
      (some (if en.lastAccessed = 0 then 0 else en.lastAccessed * 1000))
    recovery_status := "Recovered from " ++ name }

/-- The entry loop of `extract_firefox_session_history` (lines 449-487):
entries whose URL was already seen, is empty, or starts with `about:` are
skipped; otherwise the URL joins the seen set and the record is appended
only when both URL and title are non-empty. -/
def ffEntriesStep (name : String) :
    List String → List DeletedRecord → List FFSessionEntry →
      List DeletedRecord × List String
  | seen, acc, [] => (acc, seen)
  | seen, acc, en :: rest =>
    if en.url ∈ seen ∨ en.url = "" ∨ strStartsWith en.url "about:" = true then
      ffEntriesStep name seen acc rest
    else if en.url ≠ "" ∧ en.title ≠ "" then
      ffEntriesStep name (en.url :: seen) (acc ++ [ffSessionRecord name en]) rest
    else ffEntriesStep name (en.url :: seen) acc rest

/-- The file loop of `extract_firefox_session_history` (lines 423-499):
files with a wrong header or a failed decompression/parse are skipped;
the seen-URL set persists across files. -/
def ffFilesGo : List String → List DeletedRecord → List FFBackupFile → List DeletedRecord
  | _, acc, [] => acc
  | seen, acc, f :: fs =>
    if f.header = mozLz4Magic then
      match f.windows with
      | some ws =>
        let p := ffEntriesStep f.name seen acc (ws.flatMap (fun w => w.flatMap (fun tab => tab)))
        ffFilesGo p.2 p.1 fs
      | none => ffFilesGo seen acc fs
    else ffFilesGo seen acc fs

/-- Embeds `BrowserExtractor.extract_firefox_session_history` (lines
406-501). -/
def extract_firefox_session_history (files : List FFBackupFile) : List DeletedRecord :=
  ffFilesGo [] [] files

/-- Helper: the entry loop preserves URL hygiene of the accumulator. -/
theorem ffEntriesStep_urlOk (name : String) :
    ∀ (ents : List FFSessionEntry) (seen : List String) (acc : List DeletedRecord),
      (∀ r ∈ acc, r.url ≠ "" ∧ strStartsWith r.url "about:" = false) →
      ∀ r ∈ (ffEntriesStep name seen acc ents).1,
        r.url ≠ "" ∧ strStartsWith r.url "about:" = false
  | [], seen, acc, hacc, r, hr => hacc r hr
  | en :: rest, seen, acc, hacc, r, hr => by
    unfold ffEntriesStep at hr
    by_cases hskip : en.url ∈ seen ∨ en.url = "" ∨ strStartsWith en.url "about:" = true
    · rw [if_pos hskip] at hr
      exact ffEntriesStep_urlOk name rest seen acc hacc r hr
    · rw [if_neg hskip] at hr
      by_cases hk : en.url ≠ "" ∧ en.title ≠ ""
      · rw [if_pos hk] at hr
        refine ffEntriesStep_urlOk name rest (en.url :: seen)
          (acc ++ [ffSessionRecord name en]) ?_ r hr
        intro x hx
        rcases List.mem_append.mp hx with hx | hx
        · exact hacc x hx
        · rcases List.mem_singleton.mp hx with rfl
          refine ⟨hk.1, ?_⟩
          show strStartsWith en.url "about:" = false
          cases hb : strStartsWith en.url "about:" with
          | false => rfl
          | true => exact absurd (Or.inr (Or.inr hb)) hskip
      · rw [if_neg hk] at hr
        exact ffEntriesStep_urlOk name rest (en.url :: seen) acc hacc r hr

/-- Helper: the file loop preserves URL hygiene of the accumulator. -/
theorem ffFilesGo_urlOk :
    ∀ (fs : List FFBackupFile) (seen : List String) (acc : List DeletedRecord),
      (∀ r ∈ acc, r.url ≠ "" ∧ strStartsWith r.url "about:" = false) →
      ∀ r ∈ ffFilesGo seen acc fs,
        r.url ≠ "" ∧ strStartsWith r.url "about:" = false
  | [], _, acc, hacc, r, hr => hacc r hr
  | f :: fs, seen, acc, hacc, r, hr => by
    unfold ffFilesGo at hr
    by_cases hh : f.header = mozLz4Magic
    · rw [if_pos hh] at hr
      cases hws : f.windows with
      | none =>
        rw [hws] at hr
        exact ffFilesGo_urlOk fs seen acc hacc r hr
      | some ws =>
        rw [hws] at hr
        exact ffFilesGo_urlOk fs _ _
          (ffEntriesStep_urlOk f.name (ws.flatMap (fun w => w.flatMap (fun tab => tab)))
            seen acc hacc) r hr
    · rw [if_neg hh] at hr
      exact ffFilesGo_urlOk fs seen acc hacc r hr

/-- C10: every recovered deleted-history record of the pipeline — the
combined `recover_all` output, the session-backup extraction, and the
deleted-history list assembled by `extract_all_browsers` — has a
non-empty URL that does not start with `about:`. -/
theorem c10_recovered_records_url_nonempty_not_about
    (walData journalData : List Nat) (sessionFiles : List MozSessionFile)
    (dbData : List Nat) (cookieHosts : List String)
    (backupFiles : List FFBackupFile) (regularUrls : List String) :
    (∀ r ∈ recover_all walData journalData sessionFiles dbData cookieHosts,
      r.url ≠ "" ∧ strStartsWith r.url "about:" = false) ∧
    (∀ r ∈ extract_firefox_session_history backupFiles,
      r.url ≠ "" ∧ strStartsWith r.url "about:" = false) ∧
    (∀ r ∈ extract_all_browsers_deleted regularUrls walData journalData
        sessionFiles dbData cookieHosts,
      r.url ≠ "" ∧ strStartsWith r.url "about:" = false) := by
  refine ⟨?_, ?_, ?_⟩
  · intro r hr
    exact mem_allCandidates_urlOk (mem_dedupFirstGo _ _ _ hr)
  · intro r hr
    exact ffFilesGo_urlOk backupFiles [] []
      (by intro x hx; exact absurd hx (List.not_mem_nil x)) r hr
  · intro r hr
    have hm := (List.mem_filter.mp hr).1
    exact mem_allCandidates_urlOk (mem_dedupFirstGo _ _ _ hm)

/-- Helper: a buffer with no URL-shaped substring yields no scan matches,
whatever the fuel and offset. -/
theorem scanUrlsPosFuel_empty :
    ∀ (fuel i : Nat) (data : List Nat), hasUrlShape data = false →
      scanUrlsPosFuel fuel i data = []
  | 0, _, _, _ => rfl
  | _ + 1, _, [], _ => rfl
  | fuel + 1, i, b :: rest, h => by
    unfold hasUrlShape at h
    have h1 : (matchAt (b :: rest)).isSome = false := by
      cases ho : (matchAt (b :: rest)).isSome with
      | false => rfl
      | true => rw [ho] at h; simp at h
    have h2 : hasUrlShape rest = false := by
      cases hr : hasUrlShape rest with
      | false => rfl
      | true => rw [hr] at h; simp at h
    have hm : matchAt (b :: rest) = none := by
      cases hmm : matchAt (b :: rest) with
      | none => rfl
      | some m => rw [hmm] at h1; simp at h1
    unfold scanUrlsPosFuel
    rw [hm]
    exact scanUrlsPosFuel_empty fuel (i + 1) rest h2

/-- A UTF-8 continuation byte (0x80-0xBF). -/
def utf8Cont (b : Nat) : Bool := 128 ≤ b && b ≤ 191

/-- Strict UTF-8 validity as Python's `bytes.decode('utf-8')` checks it
(including the surrogate and overlong exclusions); decoding invalid input
raises `UnicodeDecodeError`. -/
def isValidUtf8 : List Nat → Bool
  | [] => true
  | b :: rest =>
    if b ≤ 127 then isValidUtf8 rest
    else if 194 ≤ b && b ≤ 223 then
      match rest with
      | c1 :: r => utf8Cont c1 && isValidUtf8 r
      | [] => false
    else if b = 224 then
      match rest with
      | c1 :: c2 :: r => (160 ≤ c1 && c1 ≤ 191) && utf8Cont c2 && isValidUtf8 r
      | _ => false
    else if 225 ≤ b && b ≤ 236 then
      match rest with
      | c1 :: c2 :: r => utf8Cont c1 && utf8Cont c2 && isValidUtf8 r
      | _ => false
    else if b = 237 then
      match rest with
      | c1 :: c2 :: r => (128 ≤ c1 && c1 ≤ 159) && utf8Cont c2 && isValidUtf8 r
      | _ => false
    else if 238 ≤ b && b ≤ 239 then
      match rest with
      | c1 :: c2 :: r => utf8Cont c1 && utf8Cont c2 && isValidUtf8 r
      | _ => false
    else if b = 240 then
      match rest with
      | c1 :: c2 :: c3 :: r =>
        (144 ≤ c1 && c1 ≤ 191) && utf8Cont c2 && utf8Cont c3 && isValidUtf8 r
      | _ => false
    else if 241 ≤ b && b ≤ 243 then
      match rest with
      | c1 :: c2 :: c3 :: r => utf8Cont c1 && utf8Cont c2 && utf8Cont c3 && isValidUtf8 r
      | _ => false
    else if b = 244 then
      match rest with
      | c1 :: c2 :: c3 :: r =>
        (128 ≤ c1 && c1 ≤ 143) && utf8Cont c2 && utf8Cont c3 && isValidUtf8 r
      | _ => false
    else false

/-- Result of `json.loads` plus the subsequent dict access, as an oracle:
a `json.JSONDecodeError` (which `parse_session_data` catches), a parsed
non-dict value (on which `.get` raises `AttributeError`, uncaught), or a
dict-shaped windows → tabs → entries tree. -/
inductive JsonOutcome where
  | decodeError : JsonOutcome
  | nonDict : JsonOutcome
  | tree : List (List (List FFSessionEntry)) → JsonOutcome

/-- One record of `FirefoxForensics.parse_session_data` (lines 161-167). -/
structure FFParsedEntry where
  url : String
  title : String
  timestamp : Int
  source : String
deriving DecidableEq, Repr

/-- Outcome of `FirefoxForensics.parse_session_data` on one session file:
a returned record list, or one of the exceptions its `except` clauses do
not catch (they handle only `subprocess.CalledProcessError` and
`json.JSONDecodeError`). -/
inductive SessionParseOutcome where
  | ok : List FFParsedEntry → SessionParseOutcome
  | unicodeRaised : SessionParseOutcome
  | lz4Raised : SessionParseOutcome
  | attrRaised : SessionParseOutcome
deriving DecidableEq, Repr

/-- The entry extraction of `parse_session_data` (lines 152-167). -/
def ffParsedEntries (name : String) (ws : List (List (List FFSessionEntry))) :
    List FFParsedEntry :=
  ws.flatMap (fun w => w.flatMap (fun tab => tab.filterMap (fun entry =>
    if entry.url ≠ "" ∧ strStartsWith entry.url "about:" = false ∧
        strStartsWith entry.url "place:" = false then
      some ⟨entry.url, entry.title, entry.lastAccessed, name⟩
    else none)))

/-- Embeds `FirefoxForensics.parse_session_data` (lines 122-174) on one
file's bytes.  With the LZ4 magic, the payload is block-decompressed
(`lz4Raised` when the library call fails — not caught) and parsed;
without the magic, the whole file is decoded as strict UTF-8 — a
`UnicodeDecodeError` on invalid bytes is not caught — and then parsed as
JSON, where only `json.JSONDecodeError` is caught (yielding no records). -/
def parse_session_data_file (jsonParse : List Nat → JsonOutcome)
    (lz4dec : List Nat → Option (List Nat)) (name : String)
    (data : List Nat) : SessionParseOutcome :=
  if data.take 8 = mozLz4Magic then
    match lz4dec (data.drop 12) with
    | none => .lz4Raised
    | some payload =>
      match jsonParse payload with
      | .decodeError => .ok []
      | .nonDict => .attrRaised
      | .tree ws => .ok (ffParsedEntries name ws)
  else
    if isValidUtf8 data then
      match jsonParse data with
      | .decodeError => .ok []
      | .nonDict => .attrRaised
      | .tree ws => .ok (ffParsedEntries name ws)
    else .unicodeRaised

/-- C5: the claim holds for the raw-byte carvers — a buffer with no
URL-shaped substring yields the empty record list, exception-free by
construction — but `parse_session_data` violates it: on a session file
holding the single byte 0xFF (no recognizable header, no URL substring,
invalid UTF-8) it raises an uncaught `UnicodeDecodeError`, whatever the
external decompression and JSON oracles do, instead of returning an empty
list. -/
theorem c5_session_parser_raises_on_invalid_utf8 :
    (∀ (jsonParse : List Nat → JsonOutcome) (lz4dec : List Nat → Option (List Nat))
      (name : String),
      parse_session_data_file jsonParse lz4dec name [255] = .unicodeRaised) ∧
    (∀ data : List Nat, hasUrlShape data = false → recover_from_wal data = []) ∧
    recover_from_wal [255] = [] := by
  refine ⟨?_, ?_, by decide⟩
  · intro jp lz nm
    rfl
  · intro data h
    unfold recover_from_wal scanUrlsPos
    rw [scanUrlsPosFuel_empty data.length 0 data h]
    rfl

/-- How a file is touched by one step of the engine. -/
inductive AccessMode where
  | read : AccessMode
  | rwOpen : AccessMode
  | write : AccessMode
deriving DecidableEq, Repr

/-- One file access of the engine's side-effect trace: the file (named as
in the code), whether it is an original profile artifact (as opposed to a
scratch copy or an output file), how it is touched, and by which call.
`read` is a read-only open or a copy source; `rwOpen` is a
`sqlite3.connect` under which only SELECT statements run; `write` covers
copy destinations, deletions, and executed statements that modify the
file. -/
structure FileAccess where
  file : String
  original : Bool
  mode : AccessMode
  action : String
deriving DecidableEq, Repr

/-- File accesses of `extract_chrome_history` (lines 183-234). -/
def extract_chrome_history_ops : List FileAccess :=
  [⟨"History", true, .read, "shutil.copy2 source"⟩,
   ⟨"chrome_history_temp.db", false, .write, "shutil.copy2 dest"⟩,
   ⟨"chrome_history_temp.db", false, .rwOpen, "sqlite3.connect SELECT"⟩,
   ⟨"chrome_history_temp.db", false, .write, "unlink"⟩]

/-- File accesses of `extract_chrome_downloads` (lines 236-352). -/
def extract_chrome_downloads_ops : List FileAccess :=
  [⟨"History", true, .read, "shutil.copy2 source"⟩,
   ⟨"chrome_downloads_temp.db", false, .write, "shutil.copy2 dest"⟩,
   ⟨"chrome_downloads_temp.db", false, .rwOpen, "sqlite3.connect SELECT"⟩,
   ⟨"chrome_downloads_temp.db", false, .write, "unlink"⟩]

/-- File accesses of `extract_chrome_cookies` (lines 354-404). -/
def extract_chrome_cookies_ops : List FileAccess :=
  [⟨"Cookies", true, .read, "shutil.copy2 source"⟩,
   ⟨"chrome_cookies_temp.db", false, .write, "shutil.copy2 dest"⟩,
   ⟨"chrome_cookies_temp.db", false, .rwOpen, "sqlite3.connect SELECT"⟩,
   ⟨"chrome_cookies_temp.db", false, .write, "unlink"⟩]

/-- File accesses of `extract_chrome_deleted_history` (lines 977-1049). -/
def extract_chrome_deleted_history_ops : List FileAccess :=
  [⟨"History", true, .read, "shutil.copy2 source"⟩,
   ⟨"chrome_deleted_temp.db", false, .write, "shutil.copy2 dest"⟩,
   ⟨"chrome_deleted_temp.db", false, .rwOpen, "sqlite3.connect PRAGMA queries"⟩,
   ⟨"History-journal", true, .read, "stat"⟩,
   ⟨"chrome_deleted_temp.db", false, .write, "unlink"⟩]

/-- File accesses of the basic path of `extract_firefox_history`
(lines 549-607). -/
def extract_firefox_history_ops : List FileAccess :=
  [⟨"places.sqlite", true, .read, "shutil.copy2 source"⟩,
   ⟨"firefox_places_temp.db", false, .write, "shutil.copy2 dest"⟩,
   ⟨"firefox_places_temp.db", false, .rwOpen, "sqlite3.connect SELECT"⟩,
   ⟨"firefox_places_temp.db", false, .write, "unlink"⟩]

/-- File accesses of `extract_firefox_session_history` (lines 406-501). -/
def extract_firefox_session_history_ops : List FileAccess :=
  [⟨"sessionstore-backups backup files", true, .read, "open rb"⟩]

/-- File accesses of `extract_firefox_cookies` (lines 611-659). -/
def extract_firefox_cookies_ops : List FileAccess :=
  [⟨"cookies.sqlite", true, .read, "shutil.copy2 source"⟩,
   ⟨"firefox_cookies_temp.db", false, .write, "shutil.copy2 dest"⟩,
   ⟨"firefox_cookies_temp.db", false, .rwOpen, "sqlite3.connect SELECT"⟩,
   ⟨"firefox_cookies_temp.db", false, .write, "unlink"⟩]

/-- File accesses of `extract_safari_history` (lines 1051-1189): before
copying, the ORIGINAL `History.db` is opened through `sqlite3.connect`
and `PRAGMA wal_checkpoint(TRUNCATE)` is executed (lines 1058-1067),
which writes checkpointed pages into the database and truncates its WAL
side file. -/
def extract_safari_history_ops : List FileAccess :=
  [⟨"History.db", true, .write, "sqlite3.connect PRAGMA wal_checkpoint(TRUNCATE)"⟩,
   ⟨"History.db-wal", true, .write, "truncated by the wal_checkpoint"⟩,
   ⟨"History.db", true, .read, "shutil.copy2 source"⟩,
   ⟨"safari_history_temp.db", false, .write, "shutil.copy2 dest"⟩,
   ⟨"safari_history_temp.db", false, .rwOpen, "sqlite3.connect SELECT"⟩,
   ⟨"safari_history_temp.db", false, .write, "unlink"⟩]

/-- File accesses of `extract_safari_deleted_history` (lines 874-975):
the same checkpoint against the ORIGINAL `History.db` at lines 882-889. -/
def extract_safari_deleted_history_ops : List FileAccess :=
  [⟨"History.db", true, .write, "sqlite3.connect PRAGMA wal_checkpoint(TRUNCATE)"⟩,
   ⟨"History.db-wal", true, .write, "truncated by the wal_checkpoint"⟩,
   ⟨"History.db", true, .read, "shutil.copy2 source"⟩,
   ⟨"safari_tombstones_temp.db", false, .write, "shutil.copy2 dest"⟩,
   ⟨"safari_tombstones_temp.db", false, .rwOpen, "sqlite3.connect SELECT"⟩,
   ⟨"safari_tombstones_temp.db", false, .write, "unlink"⟩]

/-- File accesses of `extract_safari_downloads` (lines 661-737). -/
def extract_safari_downloads_ops : List FileAccess :=
  [⟨"Downloads.plist", true, .read, "open rb"⟩]

/-- File accesses of `extract_safari_cookies` (lines 739-872). -/
def extract_safari_cookies_ops : List FileAccess :=
  [⟨"Cookies.db", true, .read, "shutil.copy2 source"⟩,
   ⟨"safari_cookies_temp.db", false, .write, "shutil.copy2 dest"⟩,
   ⟨"safari_cookies_temp.db", false, .rwOpen, "sqlite3.connect SELECT"⟩,
   ⟨"safari_cookies_temp.db", false, .write, "unlink"⟩,
   ⟨"Cookies.binarycookies", true, .read, "open rb"⟩]

/-- File accesses of `AdvancedFirefoxRecovery.recover_from_wal`
(lines 28-55). -/
def recover_from_wal_ops : List FileAccess :=
  [⟨"places.sqlite-wal", true, .read, "open rb"⟩]

/-- File accesses of `AdvancedFirefoxRecovery.recover_from_journal`
(lines 57-84). -/
def recover_from_journal_ops : List FileAccess :=
  [⟨"places.sqlite-journal", true, .read, "open rb"⟩]

/-- File accesses of `AdvancedFirefoxRecovery.recover_from_session_files`
(lines 86-132). -/
def recover_from_session_files_ops : List FileAccess :=
  [⟨"sessionstore-backups jsonlz4 and baklz4 files", true, .read, "open rb"⟩]

/-- File accesses of
`AdvancedFirefoxRecovery.recover_from_database_free_space`
(lines 134-187). -/
def recover_from_database_free_space_ops : List FileAccess :=
  [⟨"places.sqlite", true, .read, "shutil.copy2 source"⟩,
   ⟨"NamedTemporaryFile sqlite copy", false, .write, "shutil.copy2 dest"⟩,
   ⟨"NamedTemporaryFile sqlite copy", false, .read, "open rb"⟩,
   ⟨"NamedTemporaryFile sqlite copy", false, .write, "unlink"⟩]

/-- File accesses of `AdvancedFirefoxRecovery.recover_from_cookies`
(lines 189-221): the ORIGINAL `cookies.sqlite` is opened directly through
`sqlite3.connect` (a read-write open), though only a SELECT runs. -/
def recover_from_cookies_ops : List FileAccess :=
  [⟨"cookies.sqlite", true, .rwOpen, "sqlite3.connect SELECT"⟩]

/-- File accesses of `FirefoxForensics.analyze_places_database`
(lines 51-120); the `PRAGMA journal_mode=WAL` write runs on the scratch
copy. -/
def analyze_places_database_ops : List FileAccess :=
  [⟨"places.sqlite", true, .read, "shutil.copy2 source"⟩,
   ⟨"NamedTemporaryFile sqlite copy", false, .write, "shutil.copy2 dest"⟩,
   ⟨"NamedTemporaryFile sqlite copy", false, .write, "sqlite3.connect PRAGMA journal_mode=WAL"⟩,
   ⟨"NamedTemporaryFile sqlite copy", false, .write, "unlink"⟩]

/-- File accesses of `FirefoxForensics.parse_session_data`
(lines 122-174). -/
def parse_session_data_ops : List FileAccess :=
  [⟨"sessionstore-backups jsonlz4 files", true, .read, "open rb"⟩]

/-- The engine's combined file-access trace over one run across the
browser profiles. -/
def engine_file_ops : List FileAccess :=
  extract_chrome_history_ops ++ extract_chrome_downloads_ops ++
    extract_chrome_cookies_ops ++ extract_chrome_deleted_history_ops ++
    extract_firefox_history_ops ++ extract_firefox_session_history_ops ++
    extract_firefox_cookies_ops ++ extract_safari_history_ops ++
    extract_safari_deleted_history_ops ++ extract_safari_downloads_ops ++
    extract_safari_cookies_ops ++ recover_from_wal_ops ++
    recover_from_journal_ops ++ recover_from_session_files_ops ++
    recover_from_database_free_space_ops ++ recover_from_cookies_ops ++
    analyze_places_database_ops ++ parse_session_data_ops

/-- C3 counterexample: `extract_safari_history` opens the original
`History.db` and modifies it (forced WAL checkpoint), so it is not true
that every access to an original artifact is a read. -/
theorem c3_counterexample :
    ¬ (∀ op ∈ extract_safari_history_ops, op.original = true → op.mode = .read) := by
  decide

/-- C3 amended: across the engine's trace, every access to an original
artifact is read-only, except that (a) the original Safari `History.db`
(and through it `History.db-wal`) is opened and modified by the forced
`PRAGMA wal_checkpoint(TRUNCATE)` in `extract_safari_history` and
`extract_safari_deleted_history`, and (b) `recover_from_cookies` opens
the original `cookies.sqlite` through `sqlite3.connect` — a read-write
open — to run a SELECT.  All other writes target scratch copies or output
files. -/
theorem c3_amended_original_access_modes :
    engine_file_ops.all (fun op =>
      !op.original ||
      (decide (op.mode = .read) ||
        (decide (op.mode = .write) &&
          (decide (op.file = "History.db") || decide (op.file = "History.db-wal"))) ||
        (decide (op.mode = .rwOpen) && decide (op.file = "cookies.sqlite")))) = true := by
  decide

/-- A truthy timestamp value of a loaded CSV row: either a parsed
`datetime` (microseconds since 1970) or a non-empty string that
`load_csv_data` left unparsed.  A falsy value (empty string or `None`) is
modelled as the field being `none`. -/
inductive TsVal where
  | dt : Int → TsVal
  | str : String → TsVal
deriving DecidableEq, Repr

/-- The `sort_key` closure of `build_timeline` (lines 145-155 of
`analyze_artifacts.py`): a `datetime` sorts as itself, a string sorts as
its `fromisoformat` parse when that succeeds and as `datetime.min`
otherwise.  The ISO parser is an oracle parameter. -/
def tsSortKey (parseIso : String → Option Int) : TsVal → Int
  | .dt t => t
  | .str s => (parseIso s).getD minDatetimeUs

/-- A row of `browser_history.csv` as `build_timeline` reads it. -/
structure HistoryRow where
  browser : String
  url : String
  title : String
  visit_time : Option TsVal
deriving DecidableEq, Repr

/-- A row of `browser_downloads.csv` as `build_timeline` reads it. -/
structure DownloadRow where
  browser : String
  url : String
  target_path : String
  start_time : Option TsVal
  end_time : Option TsVal
deriving DecidableEq, Repr

/-- A row of `browser_cookies.csv` as `build_timeline` reads it.  The
`host_key`/`host` and `last_access_utc`/`lastAccessed` pairs model
`dict.get` fallbacks between the Chrome and Firefox schemas: `none` is an
absent key or a falsy value. -/
structure CookieRow where
  browser : String
  host_key : Option String
  host : Option String
  name : String
  creation_utc : Option TsVal
  last_access_utc : Option TsVal
  lastAccessed : Option TsVal
deriving DecidableEq, Repr

/-- One timeline event dict (lines 88-142): fields a given event kind
does not set are modelled as the empty string. -/
structure Event where
  timestamp : TsVal
  type : String
  browser : String
  url : String
  title : String
  target_path : String
  host : String
  name : String
  details : String
deriving DecidableEq, Repr

/-- Events contributed by one history row (lines 87-96): one
`history_visit` event when `visit_time` is truthy, nothing otherwise. -/
def eventsOfHistoryRow (r : HistoryRow) : List Event :=
  match r.visit_time with
  | some ts =>
    [{ timestamp := ts, type := "history_visit", browser := r.browser,
       url := r.url, title := r.title, target_path := "", host := "", name := "",
       details := "Visited: " ++ r.title ++ " (" ++ r.url ++ ")" }]
  | none => []

/-- Events contributed by one download row (lines 99-118): a
`download_start` and a `download_complete` event, each only when its
timestamp is truthy. -/
def eventsOfDownloadRow (r : DownloadRow) : List Event :=
  (match r.start_time with
   | some ts =>
     [{ timestamp := ts, type := "download_start", browser := r.browser,
        url := r.url, title := "", target_path := r.target_path, host := "", name := "",
        details := "Download started: " ++ r.target_path ++ " from " ++ r.url }]
   | none => []) ++
  (match r.end_time with
   | some ts =>
     [{ timestamp := ts, type := "download_complete", browser := r.browser,
        url := r.url, title := "", target_path := r.target_path, host := "", name := "",
        details := "Download completed: " ++ r.target_path }]
   | none => [])

/-- The host lookup `item.get('host_key', item.get('host', ''))` of the
cookie events. -/
def cookieHostField (r : CookieRow) : String :=
  match r.host_key with
  | some h => h
  | none => r.host.getD ""

/-- Events contributed by one cookie row (lines 121-142): a
`cookie_created` event when `creation_utc` is truthy and a
`cookie_accessed` event at `last_access_utc or lastAccessed` when that is
truthy. -/
def eventsOfCookieRow (r : CookieRow) : List Event :=
  (match r.creation_utc with
   | some ts =>
     [{ timestamp := ts, type := "cookie_created", browser := r.browser,
        url := "", title := "", target_path := "", host := cookieHostField r,
        name := r.name,
        details := "Cookie created: " ++ r.name ++ " for " ++ cookieHostField r }]
   | none => []) ++
  (match (match r.last_access_utc with
          | some v => some v
          | none => r.lastAccessed) with
   | some ts =>
     [{ timestamp := ts, type := "cookie_accessed", browser := r.browser,
        url := "", title := "", target_path := "", host := cookieHostField r,
        name := r.name,
        details := "Cookie accessed: " ++ r.name ++ " for " ++ cookieHostField r }]
   | none => [])

/-- The unsorted event list `build_timeline` accumulates before
sorting. -/
def rawTimelineEvents (history : List HistoryRow) (downloads : List DownloadRow)
    (cookies : List CookieRow) : List Event :=
  history.flatMap eventsOfHistoryRow ++ downloads.flatMap eventsOfDownloadRow ++
    cookies.flatMap eventsOfCookieRow

/-- Embeds `BrowserAnalyzer.build_timeline` (lines 82-159): collect the
events of rows with truthy timestamps and stable-sort them ascending by
`sort_key` (Python's `list.sort` and `List.mergeSort` are both stable). -/
def build_timeline (parseIso : String → Option Int) (history : List HistoryRow)
    (downloads : List DownloadRow) (cookies : List CookieRow) : List Event :=
  (rawTimelineEvents history downloads cookies).mergeSort
    (fun a b => decide (tsSortKey parseIso a.timestamp ≤ tsSortKey parseIso b.timestamp))

/-- A history row whose `visit_time` is absent. -/
def droppedHistoryRowExample : HistoryRow :=
  ⟨"Firefox", "https://dropped.example/x", "Dropped", none⟩

/-- C2 counterexample: `build_timeline` returns a single list and keeps
no record of the input row with an absent timestamp — the row appears in
no output at all (there is no unknown-time side list in the code), so it
is dropped silently rather than retained. -/
theorem c2_counterexample :
    build_timeline (fun _ => none) [droppedHistoryRowExample] [] [] = [] ∧
    droppedHistoryRowExample.visit_time = none := by
  constructor
  · simp [build_timeline, rawTimelineEvents, eventsOfHistoryRow, droppedHistoryRowExample]
  · rfl

/-- Helper: rows with an absent timestamp contribute no event, so
filtering them away does not change the accumulated event list. -/
theorem flatMap_eventsOfHistoryRow_filter (history : List HistoryRow) :
    (history.filter (fun r => r.visit_time.isSome)).flatMap eventsOfHistoryRow =
      history.flatMap eventsOfHistoryRow := by
  induction history with
  | nil => rfl
  | cons r rs ih =>
    cases h : r.visit_time with
    | none =>
      rw [List.filter_cons_of_neg (by simp [h]), List.flatMap_cons, ih]
      have : eventsOfHistoryRow r = [] := by unfold eventsOfHistoryRow; rw [h]
      rw [this]
      rfl
    | some ts =>
      rw [List.filter_cons_of_pos (by simp [h]), List.flatMap_cons, List.flatMap_cons, ih]

/-- C2 amended: the timeline is a permutation of exactly the events of
rows with truthy timestamps, sorted (non-decreasingly) by the sort key;
rows with an absent timestamp are dropped silently — removing them from
the input does not change the output, and no second (unknown-time) output
exists. -/
theorem c2_amended_timeline_sorted_and_drops_absent (parseIso : String → Option Int)
    (history : List HistoryRow) (downloads : List DownloadRow)
    (cookies : List CookieRow) :
    (build_timeline parseIso history downloads cookies).Perm
      (rawTimelineEvents history downloads cookies) ∧
    (build_timeline parseIso history downloads cookies).Pairwise
      (fun a b => tsSortKey parseIso a.timestamp ≤ tsSortKey parseIso b.timestamp) ∧
    build_timeline parseIso history downloads cookies =
      build_timeline parseIso (history.filter (fun r => r.visit_time.isSome))
        downloads cookies := by
  refine ⟨List.mergeSort_perm _ _, ?_, ?_⟩
  · have hs := @List.sorted_mergeSort Event
      (fun a b : Event =>
        decide (tsSortKey parseIso a.timestamp ≤ tsSortKey parseIso b.timestamp))
      (by intro a b c hab hbc; simp only [decide_eq_true_eq] at *; omega)
      (by intro a b; simp only [Bool.or_eq_true, decide_eq_true_eq]; omega)
      (rawTimelineEvents history downloads cookies)
    refine hs.imp ?_
    intro a b h
    simpa using h
  · unfold build_timeline rawTimelineEvents
    rw [flatMap_eventsOfHistoryRow_filter]

/-- The 30-minute inactivity threshold `timedelta(minutes=30)` of
`generate_session_analysis` (line 352), in microseconds. -/
def session_timeout_us : Int := 1800000000

/-- The `ensure_datetime` closure of `generate_session_analysis`
(lines 354-363): a `datetime` value stands, a string is re-parsed with
`fromisoformat` (`none` on failure). -/
def ensure_datetime (parseIso : String → Option Int) : TsVal → Option Int
  | .dt t => some t
  | .str s => parseIso s

/-- The timestamp the segmenter sees for one event. -/
def evTs (parseIso : String → Option Int) (e : Event) : Option Int :=
  ensure_datetime parseIso e.timestamp

/-- One session of `generate_session_analysis` (lines 375-388): start and
end times plus the ordered member events.  The set-valued aggregates
(`browsers`, `domains`, `activity_types`) and the statistics computed
after the loop are derived per-session metadata no claim refers to, and
are not modelled. -/
structure Session where
  start_time : Int
  end_time : Int
  events : List Event
deriving DecidableEq, Repr

/-- The segmentation loop of `generate_session_analysis` (lines 365-403)
with a current session open: an event without a usable timestamp is
skipped; a gap strictly greater than the threshold closes the current
session and opens a new one at the event; otherwise the event extends the
current session (its end time becomes the event's timestamp). -/
def segmentGo (parseIso : String → Option Int) : Session → List Event → List Session
  | cur, [] => [cur]
  | cur, e :: es =>
    match evTs parseIso e with
    | none => segmentGo parseIso cur es
    | some t =>
      if session_timeout_us < t - cur.end_time then
        cur :: segmentGo parseIso ⟨t, t, [e]⟩ es
      else
        segmentGo parseIso ⟨cur.start_time, t, cur.events ++ [e]⟩ es

/-- Embeds `BrowserAnalyzer.generate_session_analysis` (lines 348-427),
restricted to the session list it returns: events are skipped until the
first one with a usable timestamp opens the first session. -/
def generate_session_analysis (parseIso : String → Option Int) : List Event → List Session
  | [] => []
  | e :: es =>
    match evTs parseIso e with
    | none => generate_session_analysis parseIso es
    | some t => segmentGo parseIso ⟨t, t, [e]⟩ es

/-- The within-session gap bound between two consecutive events: when
both carry timestamps, the later minus the earlier is at most the
threshold (an exactly-equal gap does not split). -/
def gapOk (parseIso : String → Option Int) (a b : Event) : Prop :=
  match evTs parseIso a, evTs parseIso b with
  | some ta, some tb => tb - ta ≤ session_timeout_us
  | _, _ => True

/-- Shape facts of one produced session: it is non-empty, its first
event's timestamp is its start time, its last event's timestamp is its
end time, and consecutive member events are within the threshold. -/
def segEndpoints (parseIso : String → Option Int) (s : Session) : Prop :=
  s.events ≠ [] ∧
  s.events.head?.bind (evTs parseIso) = some s.start_time ∧
  s.events.getLast?.bind (evTs parseIso) = some s.end_time ∧
  s.events.Chain' (gapOk parseIso)

/-- Helper: the produced sessions' events, concatenated, are exactly the
input events that carry a usable timestamp, with the open session's
events in front. -/
theorem segmentGo_join (parseIso : String → Option Int) :
    ∀ (es : List Event) (cur : Session),
      ((segmentGo parseIso cur es).map Session.events).flatten =
        cur.events ++ es.filter (fun e => (evTs parseIso e).isSome)
  | [], cur => by simp [segmentGo]
  | e :: es, cur => by
    unfold segmentGo
    cases ht : evTs parseIso e with
    | none =>
      rw [List.filter_cons_of_neg (by simp [ht])]
      exact segmentGo_join parseIso es cur
    | some t =>
      rw [List.filter_cons_of_pos (by simp [ht])]
      dsimp only
      by_cases hgap : session_timeout_us < t - cur.end_time
      · rw [if_pos hgap]
        rw [List.map_cons, List.flatten_cons, segmentGo_join parseIso es ⟨t, t, [e]⟩]
        simp
      · rw [if_neg hgap]
        rw [segmentGo_join parseIso es ⟨cur.start_time, t, cur.events ++ [e]⟩]
        simp

/-- Helper: `segmentGo_join` lifted to the whole segmenter. -/
theorem generate_session_analysis_join (parseIso : String → Option Int) :
    ∀ es : List Event,
      ((generate_session_analysis parseIso es).map Session.events).flatten =
        es.filter (fun e => (evTs parseIso e).isSome)
  | [] => rfl
  | e :: es => by
    unfold generate_session_analysis
    cases ht : evTs parseIso e with
    | none =>
      rw [List.filter_cons_of_neg (by simp [ht])]
      exact generate_session_analysis_join parseIso es
    | some t =>
      rw [List.filter_cons_of_pos (by simp [ht])]
      rw [segmentGo_join parseIso es ⟨t, t, [e]⟩]
      simp

/-- Helper: unconditional shape of the segmentation — the result starts
with the evolved current session (same start time), every produced
session satisfies the endpoint facts, and consecutive sessions are
separated by a gap strictly greater than the threshold. -/
theorem segmentGo_structure (parseIso : String → Option Int) :
    ∀ (es : List Event) (cur : Session), segEndpoints parseIso cur →
      (∃ s0 ss, segmentGo parseIso cur es = s0 :: ss ∧ s0.start_time = cur.start_time) ∧
      (∀ s ∈ segmentGo parseIso cur es, segEndpoints parseIso s) ∧
      (segmentGo parseIso cur es).Chain'
        (fun s1 s2 => session_timeout_us < s2.start_time - s1.end_time)
  | [], cur, hcur => by
    refine ⟨⟨cur, [], rfl, rfl⟩, ?_, ?_⟩
    · intro s hs
      rcases List.mem_singleton.mp hs with rfl
      exact hcur
    · exact List.chain'_singleton cur
  | e :: es, cur, hcur => by
    unfold segmentGo
    cases ht : evTs parseIso e with
    | none => exact segmentGo_structure parseIso es cur hcur
    | some t =>
      dsimp only
      by_cases hgap : session_timeout_us < t - cur.end_time
      · rw [if_pos hgap]
        have hnew : segEndpoints parseIso ⟨t, t, [e]⟩ := by
          refine ⟨by simp, by simp [ht], by simp [ht], List.chain'_singleton e⟩
        obtain ⟨⟨s0, ss, heq, hs0⟩, hall, hchain⟩ :=
          segmentGo_structure parseIso es ⟨t, t, [e]⟩ hnew
        refine ⟨⟨cur, segmentGo parseIso ⟨t, t, [e]⟩ es, rfl, rfl⟩, ?_, ?_⟩
        · intro s hs
          rcases List.mem_cons.mp hs with rfl | hs
          · exact hcur
          · exact hall s hs
        · rw [heq]
          rw [heq] at hchain
          refine List.chain'_cons.mpr ⟨?_, hchain⟩
          rw [hs0]
          exact hgap
      · rw [if_neg hgap]
        obtain ⟨hne, hhead, hlast, hch⟩ := hcur
        have hext : segEndpoints parseIso ⟨cur.start_time, t, cur.events ++ [e]⟩ := by
          refine ⟨by simp, ?_, ?_, ?_⟩
          · show (cur.events ++ [e]).head?.bind (evTs parseIso) = some cur.start_time
            rw [List.head?_append]
            cases hh : cur.events.head? with
            | none => exact absurd (List.head?_eq_none_iff.mp hh) hne
            | some x =>
              rw [hh] at hhead
              simpa using hhead
          · show (cur.events ++ [e]).getLast?.bind (evTs parseIso) = some t
            rw [List.getLast?_concat]
            simpa using ht
          · show (cur.events ++ [e]).Chain' (gapOk parseIso)
            refine List.Chain'.append hch (List.chain'_singleton e) ?_
            intro x hx y hy
            rw [List.head?_cons, Option.mem_some_iff] at hy
            subst hy
            cases hl : cur.events.getLast? with
            | none => rw [hl] at hx; cases hx
            | some z =>
              rw [hl, Option.mem_some_iff] at hx
              subst hx
              rw [hl] at hlast
              have hz : evTs parseIso z = some cur.end_time := by simpa using hlast
              unfold gapOk
              rw [hz, ht]
              omega
        obtain ⟨⟨s0, ss, heq, hs0⟩, hall, hchain⟩ :=
          segmentGo_structure parseIso es ⟨cur.start_time, t, cur.events ++ [e]⟩ hext
        exact ⟨⟨s0, ss, heq, hs0⟩, hall, hchain⟩

/-- Helper: `segmentGo_structure` lifted to the whole segmenter. -/
theorem generate_session_analysis_structure (parseIso : String → Option Int) :
    ∀ es : List Event,
      (∀ s ∈ generate_session_analysis parseIso es, segEndpoints parseIso s) ∧
      (generate_session_analysis parseIso es).Chain'
        (fun s1 s2 => session_timeout_us < s2.start_time - s1.end_time)
  | [] => ⟨fun s hs => absurd hs (List.not_mem_nil s), List.chain'_nil⟩
  | e :: es => by
    unfold generate_session_analysis
    cases ht : evTs parseIso e with
    | none => exact generate_session_analysis_structure parseIso es
    | some t =>
      have hnew : segEndpoints parseIso ⟨t, t, [e]⟩ := by
        refine ⟨by simp, by simp [ht], by simp [ht], List.chain'_singleton e⟩
      obtain ⟨_, hall, hchain⟩ := segmentGo_structure parseIso es ⟨t, t, [e]⟩ hnew
      exact ⟨hall, hchain⟩

/-- Helper: over a time-sorted tail, every produced session's events lie
within its start/end interval. -/
theorem segmentGo_intervals (parseIso : String → Option Int) :
    ∀ (es : List Event) (cur : Session),
      cur.start_time ≤ cur.end_time →
      (∀ e ∈ cur.events, ∃ t, evTs parseIso e = some t ∧
        cur.start_time ≤ t ∧ t ≤ cur.end_time) →
      (cur.end_time :: es.filterMap (evTs parseIso)).Chain' (· ≤ ·) →
      ∀ s ∈ segmentGo parseIso cur es,
        s.start_time ≤ s.end_time ∧
        ∀ e ∈ s.events, ∃ t, evTs parseIso e = some t ∧
          s.start_time ≤ t ∧ t ≤ s.end_time
  | [], cur, hse, hin, _, s, hs => by
    rcases List.mem_singleton.mp hs with rfl
    exact ⟨hse, hin⟩
  | e :: es, cur, hse, hin, hch, s, hs => by
    unfold segmentGo at hs
    cases ht : evTs parseIso e with
    | none =>
      rw [ht] at hs
      rw [show (e :: es).filterMap (evTs parseIso) = es.filterMap (evTs parseIso) from
        List.filterMap_cons_none ht] at hch
      exact segmentGo_intervals parseIso es cur hse hin hch s hs
    | some t =>
      rw [ht] at hs
      dsimp only at hs
      rw [List.filterMap_cons_some ht] at hch
      have het : cur.end_time ≤ t := (List.chain'_cons.mp hch).1
      have hch2 : (t :: es.filterMap (evTs parseIso)).Chain' (· ≤ ·) :=
        (List.chain'_cons.mp hch).2
      by_cases hgap : session_timeout_us < t - cur.end_time
      · rw [if_pos hgap] at hs
        rcases List.mem_cons.mp hs with rfl | hs
        · exact ⟨hse, hin⟩
        · refine segmentGo_intervals parseIso es ⟨t, t, [e]⟩ le_rfl ?_ hch2 s hs
          intro x hx
          rcases List.mem_singleton.mp hx with rfl
          exact ⟨t, ht, le_rfl, le_rfl⟩
      · rw [if_neg hgap] at hs
        refine segmentGo_intervals parseIso es ⟨cur.start_time, t, cur.events ++ [e]⟩
          (le_trans hse het) ?_ hch2 s hs
        intro x hx
        rcases List.mem_append.mp hx with hx | hx
        · obtain ⟨tx, htx, h1, h2⟩ := hin x hx
          exact ⟨tx, htx, h1, le_trans h2 het⟩
        · rcases List.mem_singleton.mp hx with rfl
          exact ⟨t, ht, le_trans hse het, le_rfl⟩

/-- Helper: `segmentGo_intervals` lifted to the whole segmenter. -/
theorem generate_session_analysis_intervals (parseIso : String → Option Int) :
    ∀ es : List Event, (es.filterMap (evTs parseIso)).Chain' (· ≤ ·) →
      ∀ s ∈ generate_session_analysis parseIso es,
        s.start_time ≤ s.end_time ∧
        ∀ e ∈ s.events, ∃ t, evTs parseIso e = some t ∧
          s.start_time ≤ t ∧ t ≤ s.end_time
  | [], _, s, hs => absurd hs (List.not_mem_nil s)
  | e :: es, hch, s, hs => by
    unfold generate_session_analysis at hs
    cases ht : evTs parseIso e with
    | none =>
      rw [ht] at hs
      rw [show (e :: es).filterMap (evTs parseIso) = es.filterMap (evTs parseIso) from
        List.filterMap_cons_none ht] at hch
      exact generate_session_analysis_intervals parseIso es hch s hs
    | some t =>
      rw [ht] at hs
      rw [List.filterMap_cons_some ht] at hch
      refine segmentGo_intervals parseIso es ⟨t, t, [e]⟩ le_rfl ?_ hch s hs
      intro x hx
      rcases List.mem_singleton.mp hx with rfl
      exact ⟨t, ht, le_rfl, le_rfl⟩

/-- C7: over a timeline whose usable timestamps are non-decreasing (the
Timeline Builder's output), the produced sessions partition the
timestamped events exactly once — their concatenated event lists equal
the timestamped subsequence of the input — every session's events lie
within its start/end interval, and the sessions are time-ordered and
non-overlapping (each one ends strictly before the next begins). -/
theorem c7_sessions_partition_timeline (parseIso : String → Option Int)
    (events : List Event)
    (hsorted : (events.filterMap (evTs parseIso)).Chain' (· ≤ ·)) :
    ((generate_session_analysis parseIso events).map Session.events).flatten =
      events.filter (fun e => (evTs parseIso e).isSome) ∧
    (∀ s ∈ generate_session_analysis parseIso events,
      s.start_time ≤ s.end_time ∧
      ∀ e ∈ s.events, ∃ t, evTs parseIso e = some t ∧
        s.start_time ≤ t ∧ t ≤ s.end_time) ∧
    (generate_session_analysis parseIso events).Chain'
      (fun s1 s2 => s1.end_time < s2.start_time) := by
  refine ⟨generate_session_analysis_join parseIso events,
    generate_session_analysis_intervals parseIso events hsorted, ?_⟩
  refine (generate_session_analysis_structure parseIso events).2.imp ?_
  intro s1 s2 h
  have : (0 : Int) < session_timeout_us := by decide
  omega

/-- The timeline event used in the concrete session scenarios. -/
def sessionEventAt (t : Int) : Event :=
  { timestamp := .dt t, type := "history_visit", browser := "Firefox",
    url := "https://example.test/path", title := "t", target_path := "",
    host := "", name := "", details := "" }

/-- C7 witness: the session partition facts at a concrete one-event
timeline. -/
theorem c7_sessions_partition_timeline_witness :
    ((generate_session_analysis (fun _ => none) [sessionEventAt 0]).map
        Session.events).flatten =
      [sessionEventAt 0].filter (fun e => (evTs (fun _ => none) e).isSome) ∧
    (∀ s ∈ generate_session_analysis (fun _ => none) [sessionEventAt 0],
      s.start_time ≤ s.end_time ∧
      ∀ e ∈ s.events, ∃ t, evTs (fun _ => none) e = some t ∧
        s.start_time ≤ t ∧ t ≤ s.end_time) ∧
    (generate_session_analysis (fun _ => none) [sessionEventAt 0]).Chain'
      (fun s1 s2 => s1.end_time < s2.start_time) :=
  c7_sessions_partition_timeline (fun _ => none) [sessionEventAt 0] (by
    simp [sessionEventAt, evTs, ensure_datetime])

/-- C8: a new session starts exactly at the gaps strictly greater than
the 30-minute threshold: within every produced session, consecutive
events are at most the threshold apart (an exactly-equal gap does not
split, as the two-event scenario at gap 1800000000 microseconds shows),
while consecutive sessions are strictly more than the threshold apart —
and the three-visit scenario at 0, 10 and 50 minutes yields exactly the
two sessions [0, 10 min] and [50 min, 50 min]. -/
theorem c8_session_boundary_strict_threshold :
    (∀ (parseIso : String → Option Int) (events : List Event),
      (∀ s ∈ generate_session_analysis parseIso events, segEndpoints parseIso s) ∧
      (generate_session_analysis parseIso events).Chain'
        (fun s1 s2 => session_timeout_us < s2.start_time - s1.end_time)) ∧
    generate_session_analysis (fun _ => none)
        [sessionEventAt 0, sessionEventAt 600000000, sessionEventAt 3000000000] =
      [⟨0, 600000000, [sessionEventAt 0, sessionEventAt 600000000]⟩,
       ⟨3000000000, 3000000000, [sessionEventAt 3000000000]⟩] ∧
    generate_session_analysis (fun _ => none)
        [sessionEventAt 0, sessionEventAt 1800000000] =
      [⟨0, 1800000000, [sessionEventAt 0, sessionEventAt 1800000000]⟩] := by
  refine ⟨?_, by decide, by decide⟩
  intro parseIso events
  exact generate_session_analysis_structure parseIso events
